import Mathlib

/-!
Verification of the ACH-to-SWIM conversion program (achandswim.py).

The program parses a fixed-width ACH payment file, extracts "on-us"
entry-detail/addenda pairs, rebuilds the remaining file with recomputed
control records, and synthesizes a fixed-width settlement ("SWIM") file
for the extracted records.

Strings are modelled as Lean Strings; all slicing helpers mirror Python
string slicing (character based, out-of-range indices clipped).
-/

namespace AchSwim

/-- Python slice s[a:b] (character indices, clipped). -/
def pySlice (s : String) (a b : Nat) : String :=
  (((s.toList.drop a).take (b - a))).asString

/-- Python slice s[:n]. -/
def pyTake (s : String) (n : Nat) : String :=
  (s.toList.take n).asString

/-- Python slice s[n:]. -/
def pyDrop (s : String) (n : Nat) : String :=
  (s.toList.drop n).asString

/-- Python slice s[-n:] (the last n characters; the whole string if shorter). -/
def pyTakeRight (s : String) (n : Nat) : String :=
  (s.toList.drop (s.toList.length - n)).asString

/-- Python slice s[:-n] (all but the last n characters). -/
def pyDropRight (s : String) (n : Nat) : String :=
  (s.toList.take (s.toList.length - n)).asString

/-- Python s.startswith(p). -/
def pyStartsWith (s p : String) : Bool :=
  p.toList.isPrefixOf s.toList

/-- Python s.endswith(p). -/
def pyEndsWith (s p : String) : Bool :=
  p.toList.isSuffixOf s.toList

/-- Auxiliary substring scan: does sub occur (contiguously) in l? -/
def containsAux (sub : List Char) : List Char → Bool
  | [] => sub.isEmpty
  | c :: cs => sub.isPrefixOf (c :: cs) || containsAux sub cs

/-- Python substring test: sub in s. -/
def pyContains (s sub : String) : Bool :=
  containsAux sub.toList s.toList

/-- Python s.strip(): remove leading and trailing whitespace. -/
def pyStrip (s : String) : String :=
  ((s.toList.dropWhile Char.isWhitespace).reverse.dropWhile Char.isWhitespace).reverse.asString

/-- Python s.isdigit() for ASCII content: nonempty and all decimal digits. -/
def pyIsDigit (s : String) : Bool :=
  !s.toList.isEmpty && s.toList.all Char.isDigit

/-- Python len(s) in characters. -/
def pyLen (s : String) : Nat :=
  s.toList.length

/-- Numeric value of a decimal-digit string, as computed by Python int()
on an all-digit string (and totalized on other inputs). -/
def decimalValue (s : String) : Nat :=
  s.toList.foldl (fun a c => a * 10 + (c.toNat - 48)) 0

/-- Python format spec of the shape 0wd on a natural number: decimal
representation left-padded with zeros to width w, never truncated. -/
def pyFmtD (w : Nat) (n : Nat) : String :=
  (List.replicate (w - (Nat.repr n).length) '0').asString ++ Nat.repr n

/-- Left-pad a string with the given fill character to the given width
(Python format spec fill-then-greater-than); never truncates. -/
def padLeft (fill : Char) (w : Nat) (s : String) : String :=
  (List.replicate (w - s.toList.length) fill).asString ++ s

/-- Right-pad a string with the given fill character to the given width
(Python format spec fill-then-less-than); never truncates. -/
def padRight (fill : Char) (w : Nat) (s : String) : String :=
  s ++ (List.replicate (w - s.toList.length) fill).asString

/-- A run of n spaces. -/
def spacesStr (n : Nat) : String :=
  (List.replicate n ' ').asString

/-- Rightmost 10 decimal digits of a natural number, as a number: models
the Python idiom int(str(n)[-10:]) used for ACH entry hashes. -/
def last10 (n : Nat) : Nat :=
  n % 10 ^ 10

/-- Run configuration consumed from the environment (command line arguments
in the source): the institution's own routing number, the ledger account,
the cash box number and the effective date. -/
structure Config where
  ftfcuRoutenbr : String
  glAcctNbr : String
  cashBoxNumber : String
  effDate : String
deriving DecidableEq

/-- Fields extracted from one ACH entry-detail record by fixed-offset
slicing (source: parse_ach_detail_record). -/
structure DetailFields where
  rtnbr : String
  acctnbr : String
  achTc : String
  amt : Nat
  traceNbr : String
  sequenceNbr : String
  hasAddenda : String
deriving DecidableEq

/-- Source parse_ach_detail_record: pure fixed-offset slicing of a detail
line. The amount models int(line[29:39].lstrip(zeros) or zero), which on
digit content equals the plain decimal value. -/
def parse_ach_detail_record (achDetailRec : String) : DetailFields :=
  let rtnbr := pySlice achDetailRec 3 12
  let acctnbr := ((pySlice achDetailRec 12 29).toList.filter (fun c => c ≠ ' ')).asString
  let achTc := pySlice achDetailRec 1 3
  let amt := decimalValue (pySlice achDetailRec 29 39)
  let traceNbr := pySlice achDetailRec 79 94
  let hasAddenda := pySlice achDetailRec 78 79
  let sequenceNbr := pyTakeRight traceNbr 7
  ⟨rtnbr, acctnbr, achTc, amt, traceNbr, sequenceNbr, hasAddenda⟩

/-- A buffered on-us candidate: the parsed fields and raw text of a pending
entry-detail line (the Python list onus_data before finalization). The idx
field is ghost data recording the line's position in the input file; no
decision of the machine depends on it. -/
structure PendingRec where
  idx : Nat
  rtnbr : String
  acctnbr : String
  achTc : String
  amt : Nat
  traceNbr : String
  line : String
deriving DecidableEq

/-- A finalized on-us record (an element of all_onus_data after the
marker-bearing addenda was seen): candidate fields plus the extracted
description. didx and aidx are ghost input positions of the detail line
and of the matched addenda line. -/
structure OnusRec where
  didx : Nat
  rtnbr : String
  acctnbr : String
  achTc : String
  amt : Nat
  traceNbr : String
  line : String
  aidx : Nat
  description : String
deriving DecidableEq, Inhabited

/-- The run-wide mutable context (source: ScriptData), restricted to the
fields the CORE logic reads or writes. Kept batch lines are paired with
their ghost input position. -/
structure ScriptData where
  fileHeader : String
  newachData : List (List (Nat × String))
  allOnusData : List OnusRec
  entryHashCnt : Nat
  totalCredit : Nat
  totalDebit : Nat
  totalRecordCnt : Nat
  glDrAmt : Nat
  swmLines : List String
  glCrLine : String
deriving DecidableEq, Inhabited

/-- ScriptData as built by the source initialize function: empty buffers
and zero accumulators. -/
def initial_script_data : ScriptData :=
  ⟨"", [], [], 0, 0, 0, 0, 0, [], ""⟩

/-- State of the parsing loop: the run context plus the loop-local
variables current_batch, is_onus and onus_data. is_onus stores the
candidate's sequence-number string; the empty string models the Python
falsy value 0. -/
structure ParseState where
  sd : ScriptData
  currentBatch : List (Nat × String)
  isOnus : String
  onusData : Option PendingRec
deriving DecidableEq

/-- Initial state of the parsing loop. -/
def initial_parse_state : ParseState :=
  ⟨initial_script_data, [], "", none⟩

/-- The on-us test of the source: re.match of 6[23]2 followed by the
institution's routing number, anchored at the start of the line. -/
def is_onus_match (route line : String) : Bool :=
  pyStartsWith line ("622" ++ route) || pyStartsWith line ("632" ++ route)

/-- The addenda shape test of the source: re.match of 705, then at least
one character, then three digits at the end of the line (the Python regex
anchored with a dollar). Faithful for newline-free lines, which is all the
line-based reader can produce. -/
def re_705_shape (line : String) : Bool :=
  pyStartsWith line "705" && decide (7 ≤ pyLen line) && (pyTakeRight line 3).toList.all Char.isDigit

/-- The description stored for a finalized on-us record (source lines
236-239): group(1) of the regex — everything between 705 and the final
three digits — stripped and capped at 128 characters. -/
def extract_description (line : String) : String :=
  pyTake (pyStrip (pyDropRight (pyDrop line 3) 3)) 128

/-- Batch-control step of the parser (input record type 8): flush a still
pending candidate back into the batch, then store and reset the batch.
An empty current batch is left untouched. -/
def step8 (s : ParseState) : ParseState :=
  if s.currentBatch.isEmpty then s
  else
    let s1 :=
      match s.onusData with
      | some c =>
        if s.isOnus = "" then s
        else { s with currentBatch := s.currentBatch ++ [(c.idx, c.line)], onusData := none, isOnus := "" }
      | none => s
    { s1 with sd := { s1.sd with newachData := s1.sd.newachData ++ [s1.currentBatch] },
              currentBatch := [] }

/-- Addenda step of the parser (record type 7). With no pending candidate
the line is kept. With a pending candidate: no marker disqualifies the
candidate (detail and addenda are both kept); marker plus matching shape
finalizes it into all_onus_data; marker with failed shape does nothing.
The none branches are unreachable (is_onus is only set together with
onus_data; Python would raise there). -/
def step7 (s : ParseState) (i : Nat) (line : String) : ParseState :=
  if s.isOnus = "" then
    { s with currentBatch := s.currentBatch ++ [(i, line)] }
  else if !(pyContains line "EXT OAO") then
    match s.onusData with
    | some c =>
      { s with currentBatch := s.currentBatch ++ [(c.idx, c.line), (i, line)],
               onusData := none, isOnus := "" }
    | none => s
  else if re_705_shape line then
    match s.onusData with
    | some c =>
      let newOnusRec : OnusRec :=
        ⟨c.idx, c.rtnbr, c.acctnbr, c.achTc, c.amt, c.traceNbr, c.line, i, extract_description line⟩
      { s with
        sd := { s.sd with allOnusData := s.sd.allOnusData ++ [newOnusRec] },
        onusData := none, isOnus := "" }
    | none => s
  else s

/-- Entry-detail step of the parser (record type 6): first flush a stale
pending candidate (it received no addenda), then either buffer the new
line as the pending candidate (on-us match) or keep it. -/
def step6 (route : String) (s : ParseState) (i : Nat) (line : String) : ParseState :=
  let s1 :=
    match s.onusData with
    | some c =>
      if s.isOnus = "" then s
      else { s with currentBatch := s.currentBatch ++ [(c.idx, c.line)], onusData := none, isOnus := "" }
    | none => s
  if is_onus_match route line then
    let f := parse_ach_detail_record line
    { s1 with isOnus := f.sequenceNbr,
              onusData := some ⟨i, f.rtnbr, f.acctnbr, f.achTc, f.amt, f.traceNbr, line⟩ }
  else
    { s1 with currentBatch := s1.currentBatch ++ [(i, line)] }

/-- The parsing loop of the source (parse_ach_file): dispatch each
stripped, nonempty line on its leading record type; a type-9 file control
stops parsing. Input lines are paired with their ghost file position. -/
def parse_lines (route : String) : ParseState → List (Nat × String) → ParseState
  | s, [] => s
  | s, (i, raw) :: rest =>
    let line := pyStrip raw
    if line.toList.isEmpty then parse_lines route s rest
    else if pyStartsWith line "101" then
      parse_lines route { s with sd := { s.sd with fileHeader := line } } rest
    else if pyStartsWith line "9" then s
    else if pyStartsWith line "8" then parse_lines route (step8 s) rest
    else if pyStartsWith line "5" then parse_lines route { s with currentBatch := [(i, line)] } rest
    else if pyStartsWith line "7" then parse_lines route (step7 s i line) rest
    else if pyStartsWith line "6" then parse_lines route (step6 route s i line) rest
    else parse_lines route s rest

/-- Source parse_ach_file, run from the freshly initialized state on the
input lines numbered by position. -/
def parse_ach_file (route : String) (raws : List String) : ParseState :=
  parse_lines route initial_parse_state raws.enum

/-- Ghost positions of all input lines currently kept for the rewritten
file: the stored batches plus the still-open current batch. -/
def keptIdxs (s : ParseState) : List Nat :=
  (s.sd.newachData.flatten ++ s.currentBatch).map Prod.fst

/-- Ghost position of the pending candidate, if any. -/
def pendIdxs (s : ParseState) : List Nat :=
  match s.onusData with
  | some c => [c.idx]
  | none => []

/-- Ghost positions consumed into finalized on-us records. -/
def onusIdxs (sd : ScriptData) : List Nat :=
  (sd.allOnusData.map (fun r => [r.didx, r.aidx])).flatten

/-- All ghost positions referenced anywhere in the parser state. -/
def stateIdxs (s : ParseState) : List Nat :=
  keptIdxs s ++ pendIdxs s ++ onusIdxs s.sd

/-- Ghost-position invariant of the parsing loop, for a state about to
consume the line at position k: every stored position is of an
already-consumed line; the positions inside finalized on-us records are
disjoint from the kept positions; and the pending candidate's position is
neither kept nor inside any finalized record. -/
def ParseInv (k : Nat) (s : ParseState) : Prop :=
  (∀ j ∈ stateIdxs s, j < k) ∧
  (∀ r ∈ s.sd.allOnusData, r.didx ∉ keptIdxs s ∧ r.aidx ∉ keptIdxs s) ∧
  (∀ c : PendingRec, s.onusData = some c → c.idx ∉ keptIdxs s ∧
    ∀ r ∈ s.sd.allOnusData, r.didx ≠ c.idx ∧ r.aidx ≠ c.idx)

/-- The four run-wide accumulators rebuild_batch adds into (fields
entry_hash_cnt, total_credit, total_debit, total_record_cnt of the
source ScriptData). -/
structure RunTotals where
  entryHashCnt : Nat
  totalCredit : Nat
  totalDebit : Nat
  totalRecordCnt : Nat
deriving DecidableEq, Inhabited

/-- Loop accumulator of rebuild_batch: the four per-batch tallies and the
batch lines collected so far. -/
structure BatchAcc where
  entryHashTotal : Nat
  debitTotal : Nat
  creditTotal : Nat
  totalRecordCnt : Nat
  newBatch : List String
deriving DecidableEq

/-- The per-line loop of rebuild_batch (source lines 433-447): a detail
line contributes the value of the first eight characters of its routing
number to the hash and its amount to the credit or debit tally according
to the last character of its transaction code; every line is counted and
kept. -/
def batch_loop : List String → BatchAcc → BatchAcc
  | [], a => a
  | line :: rest, a =>
    let a1 :=
      if pyStartsWith line "6" then
        let f := parse_ach_detail_record line
        let h := a.entryHashTotal + decimalValue (pyTake f.rtnbr 8)
        if pyEndsWith f.achTc "2" then
          { a with entryHashTotal := h, creditTotal := a.creditTotal + f.amt }
        else if pyEndsWith f.achTc "7" then
          { a with entryHashTotal := h, debitTotal := a.debitTotal + f.amt }
        else
          { a with entryHashTotal := h }
      else a
    batch_loop rest { a1 with totalRecordCnt := a1.totalRecordCnt + 1,
                              newBatch := a1.newBatch ++ [line] }

/-- Source rebuild_batch: renumber the batch header, tally its lines, drop
the batch if nothing follows the header, otherwise append a freshly built
batch control record and add the tallies into the run totals. Returns the
rebuilt lines together with the updated totals (the source mutates
script_data in place). -/
def rebuild_batch (t : RunTotals) (batchData : List String) (controlNbr : Nat) :
    List String × RunTotals :=
  match batchData with
  | [] => ([], t)
  | batchHeader :: rest =>
    let serviceClassCode := pySlice batchHeader 1 4
    let companyId := pySlice batchHeader 40 49
    let odfi := pySlice batchHeader 79 87
    let newNumber := pyFmtD 7 controlNbr
    let newHeader := pyDropRight batchHeader 7 ++ newNumber
    let a := batch_loop rest ⟨0, 0, 0, 0, [newHeader]⟩
    if a.totalRecordCnt = 0 then ([], t)
    else
      let messageAuthCd := spacesStr 18
      let reserved := spacesStr 8
      let entryHash := last10 a.entryHashTotal
      let tUpd : RunTotals :=
        ⟨t.entryHashCnt + entryHash, t.totalCredit + a.creditTotal,
          t.totalDebit + a.debitTotal, t.totalRecordCnt + a.totalRecordCnt⟩
      let footer := "8" ++ serviceClassCode ++ pyFmtD 6 a.totalRecordCnt
        ++ pyFmtD 10 entryHash ++ pyFmtD 12 a.debitTotal ++ pyFmtD 12 a.creditTotal
        ++ companyId ++ messageAuthCd ++ reserved ++ odfi ++ newNumber
      (a.newBatch ++ [footer], tUpd)

/-- The batch loop of rebuild_file (source lines 481-489): dense batch
numbering, a batch rebuilt to nothing gives its number back. Returns the
accumulated output lines, the final run totals and the final batch count. -/
def rebuild_file_loop (t : RunTotals) (acc : List String) (batchCnt : Nat) :
    List (List String) → List String × RunTotals × Nat
  | [] => (acc, t, batchCnt)
  | b :: bs =>
    let cnt := batchCnt + 1
    let r := rebuild_batch t b cnt
    if r.1.isEmpty then rebuild_file_loop r.2 acc (cnt - 1) bs
    else rebuild_file_loop r.2 (acc ++ r.1) cnt bs

/-- File header plus all rebuilt batch lines (new_ach_file of the source
just before the footer is appended). -/
def body_lines_core (t : RunTotals) (fileHeader : String) (achData : List (List String)) :
    List String :=
  (rebuild_file_loop t [fileHeader] 0 achData).1

/-- Run totals after all batches are rebuilt. -/
def final_totals_core (t : RunTotals) (fileHeader : String) (achData : List (List String)) :
    RunTotals :=
  (rebuild_file_loop t [fileHeader] 0 achData).2.1

/-- Final batch count of rebuild_file. -/
def batch_count_core (t : RunTotals) (fileHeader : String) (achData : List (List String)) : Nat :=
  (rebuild_file_loop t [fileHeader] 0 achData).2.2

/-- line_cnt of the source: one (for the coming file control record) plus
the lines emitted so far. -/
def line_cnt_core (t : RunTotals) (fileHeader : String) (achData : List (List String)) : Nat :=
  1 + (body_lines_core t fileHeader achData).length

/-- Number of all-nines padding rows appended (source: (10 - mod) if mod
else 0). -/
def extra_lines_core (t : RunTotals) (fileHeader : String) (achData : List (List String)) : Nat :=
  if line_cnt_core t fileHeader achData % 10 = 0 then 0
  else 10 - line_cnt_core t fileHeader achData % 10

/-- block_cnt of the source: padded line count divided by 10. -/
def block_count_core (t : RunTotals) (fileHeader : String) (achData : List (List String)) : Nat :=
  (line_cnt_core t fileHeader achData + extra_lines_core t fileHeader achData) / 10

/-- The 94-character all-nines ACH padding row. -/
def nines_row : String :=
  (List.replicate 94 '9').asString

/-- The recomputed file control record (record type 9) of rebuild_file. -/
def file_control_record_core (t : RunTotals) (fileHeader : String)
    (achData : List (List String)) : String :=
  "9" ++ pyFmtD 6 (batch_count_core t fileHeader achData)
    ++ pyFmtD 6 (block_count_core t fileHeader achData)
    ++ pyFmtD 8 (final_totals_core t fileHeader achData).totalRecordCnt
    ++ pyFmtD 10 (last10 (final_totals_core t fileHeader achData).entryHashCnt)
    ++ pyFmtD 12 (final_totals_core t fileHeader achData).totalDebit
    ++ pyFmtD 12 (final_totals_core t fileHeader achData).totalCredit
    ++ spacesStr 39

/-- Source rebuild_file: header and batches, then the recomputed file
control record, then the all-nines padding rows. -/
def rebuild_file_core (t : RunTotals) (fileHeader : String) (achData : List (List String)) :
    List String :=
  body_lines_core t fileHeader achData
    ++ [file_control_record_core t fileHeader achData]
    ++ List.replicate (extra_lines_core t fileHeader achData) nines_row

/-- The kept batches of a run context as plain text lines (ghost positions
dropped): this is what the source rebuild functions read. -/
def ach_lines (sd : ScriptData) : List (List String) :=
  sd.newachData.map (fun b => b.map Prod.snd)

/-- The run-total fields of a run context. -/
def run_totals (sd : ScriptData) : RunTotals :=
  ⟨sd.entryHashCnt, sd.totalCredit, sd.totalDebit, sd.totalRecordCnt⟩

/-- rebuild_file on a run context. -/
def rebuild_file (sd : ScriptData) : List String :=
  rebuild_file_core (run_totals sd) sd.fileHeader (ach_lines sd)

/-- Projections of rebuild_file on a run context. -/
def body_lines (sd : ScriptData) : List String :=
  body_lines_core (run_totals sd) sd.fileHeader (ach_lines sd)

/-- Number of padding rows for a run context. -/
def extra_lines (sd : ScriptData) : Nat :=
  extra_lines_core (run_totals sd) sd.fileHeader (ach_lines sd)

/-- block_cnt for a run context. -/
def block_count (sd : ScriptData) : Nat :=
  block_count_core (run_totals sd) sd.fileHeader (ach_lines sd)

/-- Final batch count for a run context. -/
def batch_count (sd : ScriptData) : Nat :=
  batch_count_core (run_totals sd) sd.fileHeader (ach_lines sd)

/-- The recomputed file control record for a run context. -/
def file_control_record (sd : ScriptData) : String :=
  file_control_record_core (run_totals sd) sd.fileHeader (ach_lines sd)

/-- Source write_new_ach_file: the bytes written to the output ACH file
(newline-joined lines plus a trailing newline). -/
def write_new_ach_file (sd : ScriptData) : String :=
  String.intercalate "\n" (rebuild_file sd) ++ "\n"

/-- The transaction-code map achToDnaTc of get_swim_file_info: settlement
code and description for the two credit codes; anything else is absent
(the source would raise a KeyError). -/
def ach_to_dna_tc (tc : String) : Option (String × String) :=
  if tc = "22" then some ("DEPD", "OAO External Transfer")
  else if tc = "32" then some ("DEPD", "OAO External Transfer")
  else none

/-- The swimFmt fixed-width formatter of get_swim_file_info, one argument
per format field, in order. -/
def swim_format (acct osiTc : String) (amt : Nat)
    (f4 effDate desc trace cashBox f9 f10 f11 f12 f13 f14 f15 f16 f17 : String) : String :=
  padLeft '0' 17 acct ++ padRight ' ' 4 osiTc ++ pyFmtD 10 amt ++ padLeft '0' 6 f4
    ++ padLeft ' ' 8 effDate ++ padRight ' ' 45 desc ++ padLeft ' ' 15 trace
    ++ padLeft ' ' 10 cashBox ++ padLeft ' ' 4 f9 ++ padLeft ' ' 4 f10
    ++ padRight ' ' 4 f11 ++ padRight ' ' 4 f12 ++ padRight ' ' 4 f13
    ++ padLeft ' ' 10 f14 ++ padRight ' ' 4 f15 ++ padRight ' ' 4 f16
    ++ padRight ' ' 1 f17

/-- Source create_swim_line: format one settlement line from an on-us
record. The none branch is unreachable for records produced by the parser
(their transaction code is 22 or 32); the source would raise a KeyError
there. -/
def create_swim_line (cfg : Config) (r : OnusRec) : String :=
  match ach_to_dna_tc r.achTc with
  | some p =>
    swim_format r.acctnbr p.1 r.amt "" cfg.effDate p.2 r.traceNbr cfg.cashBoxNumber
      "" "" "EL" "INTR" "IMED" "" "" "" ""
  | none => ""

/-- Source offset_gl: the ledger offset line, built with the same
formatter, the configured ledger account, settlement code GLD, the
accumulated total and the fixed description. -/
def offset_gl_line (cfg : Config) (glDrAmt : Nat) : String :=
  swim_format cfg.glAcctNbr "GLD" glDrAmt "" cfg.effDate "DNA ACH GL debit offset" ""
    cfg.cashBoxNumber "" "" "EL" "INTR" "IMED" "" "" "" ""

/-- The per-record loop of
loop_through_onus_data_create_swim_file_and_stage_holds: accumulate the
amount into glDrAmt and append one settlement line per record. -/
def onus_loop (cfg : Config) : List OnusRec → ScriptData → ScriptData
  | [], sd => sd
  | r :: rs, sd =>
    onus_loop cfg rs
      { sd with glDrAmt := sd.glDrAmt + r.amt,
                swmLines := sd.swmLines ++ [create_swim_line cfg r] }

/-- Source loop_through_onus_data_create_swim_file_and_stage_holds,
restricted to its settlement-file effect (the database holds are out of
scope): process every on-us record, then build and append the ledger
offset line. -/
def loop_through_onus (cfg : Config) (sd : ScriptData) : ScriptData :=
  let sd1 := onus_loop cfg sd.allOnusData sd
  let gl := offset_gl_line cfg sd1.glDrAmt
  { sd1 with glCrLine := gl, swmLines := sd1.swmLines ++ [gl] }

/-- Source write of the SWIM file: newline-joined settlement lines plus a
trailing newline. -/
def write_swim_file (sd : ScriptData) : String :=
  String.intercalate "\n" sd.swmLines ++ "\n"

/-- Result of the routing number validator: pass, or fail with the printed
reason. -/
inductive RouteValidation where
  | pass : RouteValidation
  | fail (reason : String) : RouteValidation
deriving DecidableEq

/-- Source validate_routing_number_checksum: the weighted digit sum
3,7,1,3,7,1,3,7,1 modulo 10 must vanish. -/
def validate_routing_number_checksum (rtnbr : String) : Bool :=
  let digits := rtnbr.toList.map (fun c => c.toNat - 48)
  (3 * digits.getD 0 0 + 7 * digits.getD 1 0 + 1 * digits.getD 2 0
    + 3 * digits.getD 3 0 + 7 * digits.getD 4 0 + 1 * digits.getD 5 0
    + 3 * digits.getD 6 0 + 7 * digits.getD 7 0 + 1 * digits.getD 8 0) % 10 == 0

/-- The literal district list of is_valid_fed_symbol, duplicates included. -/
def fed_districts : List String :=
  ["01", "02", "03", "04", "05", "06", "07", "08", "09", "10", "11", "12",
   "21", "22", "23", "24", "25", "26", "27", "28", "29", "20", "21", "22",
   "31", "32", "33", "34", "35", "36", "37", "38", "39", "30", "31", "32"]

/-- Source is_valid_fed_symbol: membership of characters 3-4 in the
district list. -/
def is_valid_fed_symbol (rtnbr : String) : Bool :=
  fed_districts.contains (pySlice rtnbr 2 4)

/-- Source validate_route_number: the four checks in source order, each
with its printed failure reason. -/
def validate_route_number (rtnbr : String) : RouteValidation :=
  if !pyIsDigit rtnbr then .fail "Routing number must be all digits"
  else if pyLen rtnbr ≠ 9 then .fail "Routing number too short"
  else if !is_valid_fed_symbol rtnbr then .fail "Invalid fed district"
  else if !validate_routing_number_checksum rtnbr then .fail "Invalid checksum"
  else .pass

/-! Claim-side definitions, phrased from the specification's wording, to be
compared against the code-side functions above. -/

/-- Spec wording: the kept detail lines among a batch's kept lines. -/
def detail_lines (ls : List String) : List String :=
  ls.filter (fun l => pyStartsWith l "6")

/-- Spec wording: the first 8 digits of a detail line's routing number
(the routing number occupies characters 4-12 of the line). -/
def first8_of_routing (l : String) : Nat :=
  decimalValue (pySlice l 3 11)

/-- Spec wording: the transaction code of a detail line (characters 2-3). -/
def tc_of (l : String) : String :=
  pySlice l 1 3

/-- Spec wording: the amount of a detail line (characters 30-39), in cents. -/
def amount_of (l : String) : Nat :=
  decimalValue (pySlice l 29 39)

/-- Spec wording: sum, over the kept detail lines, of the first 8 digits of
each routing number. -/
def claim_batch_hash (ls : List String) : Nat :=
  ((detail_lines ls).map first8_of_routing).sum

/-- Spec wording: sum of the amounts whose transaction code ends in 7. -/
def claim_batch_debit (ls : List String) : Nat :=
  (((detail_lines ls).filter (fun l => pyEndsWith (tc_of l) "7")).map amount_of).sum

/-- Spec wording: sum of the amounts whose transaction code ends in 2. -/
def claim_batch_credit (ls : List String) : Nat :=
  (((detail_lines ls).filter (fun l => pyEndsWith (tc_of l) "2")).map amount_of).sum

/-- Spec wording: file-wide sum, over all kept batches, of the per-batch
routing-number-prefix sums (a batch's kept lines are the lines after its
header; a dropped batch has none and contributes nothing). -/
def claim_file_hash (ach : List (List String)) : Nat :=
  (ach.map (fun b => claim_batch_hash b.tail)).sum

/-- Spec wording: file-wide sum of the per-batch debit totals. -/
def claim_file_debit (ach : List (List String)) : Nat :=
  (ach.map (fun b => claim_batch_debit b.tail)).sum

/-- Spec wording: file-wide sum of the per-batch credit totals. -/
def claim_file_credit (ach : List (List String)) : Nat :=
  (ach.map (fun b => claim_batch_credit b.tail)).sum

/-- Amended claim wording: sum, over the batches, of the number of kept
entry/addenda lines after each batch header. -/
def claim_kept_record_count (ach : List (List String)) : Nat :=
  (ach.map (fun b => b.tail.length)).sum

/-- Spec wording: the number of batches whose rebuilt form is non-empty. -/
def claim_nonempty_batch_count (ach : List (List String)) : Nat :=
  (ach.filter (fun b => !(rebuild_batch ⟨0, 0, 0, 0⟩ b 1).1.isEmpty)).length

/-- The rebuilt batches themselves (same numbering discipline as
rebuild_file_loop, collecting each non-empty rebuilt batch). -/
def rebuilt_batches_loop (t : RunTotals) (batchCnt : Nat) :
    List (List String) → List (List String)
  | [] => []
  | b :: bs =>
    let cnt := batchCnt + 1
    let r := rebuild_batch t b cnt
    if r.1.isEmpty then rebuilt_batches_loop r.2 (cnt - 1) bs
    else r.1 :: rebuilt_batches_loop r.2 cnt bs

/-- Claim C2 wording, read literally: the number of all lines across the
rebuilt batches (headers and control records included). -/
def claim_total_lines_across_batches (ach : List (List String)) : Nat :=
  ((rebuilt_batches_loop ⟨0, 0, 0, 0⟩ 0 ach).map List.length).sum

/-- Modelled from the spec: the description the spec prescribes for a
finalized on-us record — the addenda's 80-character payment-related
information field (characters 4-83), trimmed, capped at 128 characters. -/
def spec_payment_info_description (line : String) : String :=
  pyTake (pyStrip (pySlice line 3 83)) 128

/-- Claim C9 wording: the input is exactly 9 ASCII digits. -/
def nine_ascii_digits (r : String) : Prop :=
  pyLen r = 9 ∧ r.toList.all Char.isDigit = true

/-- Claim C9 wording: the district prefix set 01-12, 20-29, 30-39,
enumerated without duplicates. -/
def claim_districts : List String :=
  ["01", "02", "03", "04", "05", "06", "07", "08", "09", "10", "11", "12",
   "20", "21", "22", "23", "24", "25", "26", "27", "28", "29",
   "30", "31", "32", "33", "34", "35", "36", "37", "38", "39"]

/-- Claim C9 wording: characters 3-4 form a valid district prefix. -/
def district_in_claim_set (r : String) : Prop :=
  pySlice r 2 4 ∈ claim_districts

/-- Claim C9 wording: the weighted checksum 3,7,1,3,7,1,3,7,1 over the
nine digits vanishes modulo 10. -/
def claim_checksum_ok (r : String) : Prop :=
  (List.zipWith (fun w d => w * d) [3, 7, 1, 3, 7, 1, 3, 7, 1]
    (r.toList.map (fun c => c.toNat - 48))).sum % 10 = 0

/-! Concrete records used by witnesses and counterexamples. -/

/-- A 94-character batch header whose company identification field
(characters 41-50) is the full ten digits 1234567890. -/
def c7_hdr : String :=
  "5200" ++ "FIRST TECH FED  " ++ spacesStr 20 ++ "1234567890" ++ "PPD"
    ++ "PAYROLL   " ++ "250101" ++ "250102" ++ "   " ++ "1" ++ "32118037" ++ "0000001"

/-- A 94-character entry detail line (checking credit, amount 12345). -/
def c7_det : String :=
  "622" ++ "321180379" ++ "12345678901234567" ++ "0000012345" ++ spacesStr 15
    ++ padRight ' ' 22 "JOHN DOE" ++ "00" ++ "1" ++ "321180370000001"

/-- A 94-character addenda line carrying the external-transfer marker:
705, an 80-character payment-related information field, a 4-digit addenda
sequence number and a 7-digit entry detail sequence number. -/
def c8_addenda : String :=
  "705" ++ padRight ' ' 80 "EXT OAO JOHN DOE TRANSFER" ++ "0001" ++ "0000001"

/-- A parsed run context with one kept batch of one detail line and the
zero accumulators produced by initialize. -/
def cx2_sd : ScriptData :=
  ⟨"101FILEHEADER", [[(0, c7_hdr), (1, c7_det)]], [], 0, 0, 0, 0, 0, [], ""⟩

/-- A demonstration configuration. -/
def demo_cfg : Config :=
  ⟨"99", "1234500", "360", "20250811"⟩

/-- A 94-character on-us entry detail for the demonstration route 99. -/
def demo_det : String :=
  "622" ++ "990000001" ++ padRight ' ' 17 "ACCT1" ++ "0000000500" ++ spacesStr 15
    ++ padRight ' ' 22 "ALICE" ++ "  " ++ "1" ++ "990000010000042"

/-- A 94-character marker-bearing addenda finalizing the demonstration
candidate. -/
def demo_addenda : String :=
  "705" ++ padRight ' ' 80 "EXT OAO FUNDS FOR ALICE" ++ "0001" ++ "0000042"

/-- A demonstration input file: header, one batch holding one on-us
detail plus its addenda, batch control, file control. -/
def demo_lines : List String :=
  ["101TESTHEADER", "5220DEMOBATCH", demo_det, demo_addenda, "8CONTROL", "9CONTROL"]

/-- The pending candidate the parser builds from demo_det at position 2. -/
def demo_pending : PendingRec :=
  ⟨2, "990000001", "ACCT1", "22", 500, "990000010000042", demo_det⟩

/-- A parser state with the demonstration candidate pending inside an open
batch. -/
def demo_pending_state : ParseState :=
  ⟨initial_script_data, [(1, "5220DEMOBATCH")], "0000042", some demo_pending⟩

/-- A marker-bearing addenda that fails the 705 shape test (it does not
end in three digits). -/
def demo_bad_addenda : String :=
  "705EXT OAO BAD END"

/-- A finalized demonstration on-us record. -/
def demo_onus_rec : OnusRec :=
  ⟨2, "990000001", "ACCT1", "22", 500, "990000010000042", demo_det, 3,
    extract_description demo_addenda⟩

/-- A run context ready for the settlement loop, holding one on-us
record. -/
def cx4_sd : ScriptData :=
  ⟨"101TESTHEADER", [], [demo_onus_rec], 0, 0, 0, 0, 0, [], ""⟩

end AchSwim

namespace AchSwim

theorem sanity_pySlice : pySlice "abcdef" 1 4 = "bcd" := by decide

theorem sanity_fmt : pyFmtD 7 123 = "0000123" := by decide

theorem sanity_strip : pyStrip "  ab c  " = "ab c" := by decide

theorem sanity_contains : pyContains "xxEXT OAOyy" "EXT OAO" = true := by decide

@[simp]
theorem toList_asString (cs : List Char) : (cs.asString).toList = cs :=
  rfl

@[simp]
theorem data_asString (cs : List Char) : (cs.asString).data = cs :=
  rfl

/-- The first 8 characters of the 9-character routing slice are the
characters 4-11 of the line. -/
theorem first8_slice (l : String) :
    decimalValue (pyTake (pySlice l 3 12) 8) = first8_of_routing l := by
  simp [pyTake, pySlice, first8_of_routing, List.take_take]

/-- A string ending in the digit 2 does not end in the digit 7. -/
theorem ends2_not_ends7 (t : String) (h : pyEndsWith t "2" = true) :
    pyEndsWith t "7" = false := by
  have key : ∀ l : List Char, List.isSuffixOf ['2'] l = true → List.isSuffixOf ['7'] l = false := by
    intro l hl
    unfold List.isSuffixOf at *
    cases lr : l.reverse with
    | nil =>
      rw [lr] at hl
      exact absurd hl (by decide)
    | cons c cs =>
      rw [lr] at hl
      have hc : c = '2' := by
        rw [show (['2'] : List Char).reverse = ['2'] from rfl] at hl
        simp only [List.isPrefixOf, Bool.and_eq_true, beq_iff_eq] at hl
        exact hl.1.symm
      subst hc
      rw [show (['7'] : List Char).reverse = ['7'] from rfl]
      simp [List.isPrefixOf]
  exact key t.toList h

/-- Unfolding of the claim-side hash over a cons cell. -/
theorem claim_batch_hash_cons (l : String) (rest : List String) :
    claim_batch_hash (l :: rest)
      = (if pyStartsWith l "6" then first8_of_routing l else 0) + claim_batch_hash rest := by
  simp only [claim_batch_hash, detail_lines, List.filter_cons]
  split <;> simp

/-- Unfolding of the claim-side debit total over a cons cell. -/
theorem claim_batch_debit_cons (l : String) (rest : List String) :
    claim_batch_debit (l :: rest)
      = (if pyStartsWith l "6" && pyEndsWith (tc_of l) "7" then amount_of l else 0)
        + claim_batch_debit rest := by
  simp only [claim_batch_debit, detail_lines, List.filter_cons]
  by_cases h6 : pyStartsWith l "6" <;> by_cases h7 : pyEndsWith (tc_of l) "7" <;>
    simp [h6, h7, List.filter_cons]

/-- Unfolding of the claim-side credit total over a cons cell. -/
theorem claim_batch_credit_cons (l : String) (rest : List String) :
    claim_batch_credit (l :: rest)
      = (if pyStartsWith l "6" && pyEndsWith (tc_of l) "2" then amount_of l else 0)
        + claim_batch_credit rest := by
  simp only [claim_batch_credit, detail_lines, List.filter_cons]
  by_cases h6 : pyStartsWith l "6" <;> by_cases h2 : pyEndsWith (tc_of l) "2" <;>
    simp [h6, h2, List.filter_cons]

/-- The batch loop of rebuild_batch computes exactly the claim-side sums:
the routing-prefix hash over detail lines, the debit and credit totals by
final transaction-code digit, the count of all lines, and it keeps every
line in order. -/
theorem batch_loop_spec (ls : List String) : ∀ a : BatchAcc,
    batch_loop ls a =
      ⟨a.entryHashTotal + claim_batch_hash ls, a.debitTotal + claim_batch_debit ls,
        a.creditTotal + claim_batch_credit ls, a.totalRecordCnt + ls.length,
        a.newBatch ++ ls⟩ := by
  induction ls with
  | nil =>
    intro a
    simp [batch_loop, claim_batch_hash, claim_batch_debit, claim_batch_credit, detail_lines]
  | cons l rest ih =>
    intro a
    rw [batch_loop, ih]
    rw [claim_batch_hash_cons, claim_batch_debit_cons, claim_batch_credit_cons]
    by_cases h6 : pyStartsWith l "6"
    · have hrt : (parse_ach_detail_record l).rtnbr = pySlice l 3 12 := rfl
      have htc : (parse_ach_detail_record l).achTc = tc_of l := rfl
      have hamt : (parse_ach_detail_record l).amt = amount_of l := rfl
      by_cases h2 : pyEndsWith (tc_of l) "2"
      · have h7 := ends2_not_ends7 (tc_of l) h2
        simp [h6, h2, h7, htc, hrt, hamt, first8_slice]
        omega
      · by_cases h7 : pyEndsWith (tc_of l) "7"
        · simp [h6, h2, h7, htc, hrt, hamt, first8_slice]
          omega
        · simp [h6, h2, h7, htc, hrt, hamt, first8_slice]
          omega
    · simp [h6]
      omega

/-- rebuild_batch on a batch with at least one kept line: the rebuilt
lines are the renumbered header, the kept lines, and a control record
whose tallies are the claim-side sums; the run totals absorb them. -/
theorem rebuild_batch_spec (t : RunTotals) (hdr : String) (rest : List String) (n : Nat)
    (h : rest ≠ []) :
    rebuild_batch t (hdr :: rest) n =
      ((pyDropRight hdr 7 ++ pyFmtD 7 n) :: rest ++
        ["8" ++ pySlice hdr 1 4 ++ pyFmtD 6 rest.length
          ++ pyFmtD 10 (last10 (claim_batch_hash rest))
          ++ pyFmtD 12 (claim_batch_debit rest) ++ pyFmtD 12 (claim_batch_credit rest)
          ++ pySlice hdr 40 49 ++ spacesStr 18 ++ spacesStr 8
          ++ pySlice hdr 79 87 ++ pyFmtD 7 n],
        ⟨t.entryHashCnt + last10 (claim_batch_hash rest),
          t.totalCredit + claim_batch_credit rest,
          t.totalDebit + claim_batch_debit rest,
          t.totalRecordCnt + rest.length⟩) := by
  have hlen : rest.length ≠ 0 := fun h0 => h (List.length_eq_zero.mp h0)
  simp only [rebuild_batch, batch_loop_spec]
  simp [hlen]

/-- rebuild_batch of the empty batch list. -/
theorem rebuild_batch_nil (t : RunTotals) (n : Nat) : rebuild_batch t [] n = ([], t) :=
  rfl

/-- rebuild_batch of a batch with a header only. -/
theorem rebuild_batch_single (t : RunTotals) (hdr : String) (n : Nat) :
    rebuild_batch t [hdr] n = ([], t) := by
  simp [rebuild_batch, batch_loop]

/-- A batch rebuilds to nothing exactly when nothing follows its header;
neither the run totals nor the batch number affect this. -/
theorem rebuild_batch_fst_isEmpty (t : RunTotals) (b : List String) (n : Nat) :
    (rebuild_batch t b n).1.isEmpty = b.tail.isEmpty := by
  match b with
  | [] => rfl
  | [hdr] => simp [rebuild_batch_single]
  | hdr :: l :: ls =>
    rw [rebuild_batch_spec t hdr (l :: ls) n (by simp)]
    simp

/-- C1 helper: the last line of a non-empty rebuilt batch. -/
theorem rebuild_batch_getLast (t : RunTotals) (hdr : String) (rest : List String) (n : Nat)
    (h : rest ≠ []) :
    (rebuild_batch t (hdr :: rest) n).1.getLast? =
      some ("8" ++ pySlice hdr 1 4 ++ pyFmtD 6 rest.length
        ++ pyFmtD 10 (last10 (claim_batch_hash rest))
        ++ pyFmtD 12 (claim_batch_debit rest) ++ pyFmtD 12 (claim_batch_credit rest)
        ++ pySlice hdr 40 49 ++ spacesStr 18 ++ spacesStr 8
        ++ pySlice hdr 79 87 ++ pyFmtD 7 n) := by
  rw [rebuild_batch_spec t hdr rest n h]
  simp only [← List.cons_append]
  exact List.getLast?_concat _

/-- C1: for every kept batch, the recomputed batch control record carries,
in order: record type 8, the original service-class code, the kept-line
count as the entry/addenda count (6 digits), the rightmost 10 digits of
the sum of the first 8 digits of each kept detail routing number as the
entry hash (10 digits), the sum of amounts whose transaction code ends in
7 as the debit total (12 digits), the sum of amounts whose transaction
code ends in 2 as the credit total (12 digits), and the batch number
zero-padded to 7 digits at the end. -/
theorem C1_batch_control_fields (t : RunTotals) (hdr : String) (rest : List String) (n : Nat)
    (h : rest ≠ []) :
    (rebuild_batch t (hdr :: rest) n).1.getLast? =
      some ("8" ++ pySlice hdr 1 4 ++ pyFmtD 6 rest.length
        ++ pyFmtD 10 (last10 (claim_batch_hash rest))
        ++ pyFmtD 12 (claim_batch_debit rest) ++ pyFmtD 12 (claim_batch_credit rest)
        ++ pySlice hdr 40 49 ++ spacesStr 18 ++ spacesStr 8
        ++ pySlice hdr 79 87 ++ pyFmtD 7 n) :=
  rebuild_batch_getLast t hdr rest n h

/-- C1 witness: the batch control equation evaluated on a concrete batch
of one detail line. -/
theorem C1_batch_control_fields_witness :
    ([c7_det] : List String) ≠ [] ∧
    (rebuild_batch ⟨0, 0, 0, 0⟩ (c7_hdr :: [c7_det]) 1).1.getLast? =
      some ("8" ++ pySlice c7_hdr 1 4 ++ pyFmtD 6 [c7_det].length
        ++ pyFmtD 10 (last10 (claim_batch_hash [c7_det]))
        ++ pyFmtD 12 (claim_batch_debit [c7_det]) ++ pyFmtD 12 (claim_batch_credit [c7_det])
        ++ pySlice c7_hdr 40 49 ++ spacesStr 18 ++ spacesStr 8
        ++ pySlice c7_hdr 79 87 ++ pyFmtD 7 1) :=
  ⟨by decide, C1_batch_control_fields ⟨0, 0, 0, 0⟩ c7_hdr [c7_det] 1 (by decide)⟩

/-- A batch whose tail is empty rebuilds to nothing, leaving the totals
untouched. -/
theorem rebuild_batch_of_tail_nil (t : RunTotals) (b : List String) (n : Nat)
    (h : b.tail = []) : rebuild_batch t b n = ([], t) := by
  match b with
  | [] => rfl
  | hdr :: rest =>
    simp only [List.tail_cons] at h
    subst h
    exact rebuild_batch_single t hdr n

/-- Unfolding of the claim-side file credit over a cons cell. -/
theorem claim_file_credit_cons (b : List String) (bs : List (List String)) :
    claim_file_credit (b :: bs) = claim_batch_credit b.tail + claim_file_credit bs := by
  simp [claim_file_credit]

/-- Unfolding of the claim-side file debit over a cons cell. -/
theorem claim_file_debit_cons (b : List String) (bs : List (List String)) :
    claim_file_debit (b :: bs) = claim_batch_debit b.tail + claim_file_debit bs := by
  simp [claim_file_debit]

/-- Unfolding of the claim-side kept-record count over a cons cell. -/
theorem claim_kept_record_count_cons (b : List String) (bs : List (List String)) :
    claim_kept_record_count (b :: bs) = b.tail.length + claim_kept_record_count bs := by
  simp [claim_kept_record_count]

/-- Unfolding of the claim-side non-empty batch count over a cons cell. -/
theorem claim_nonempty_batch_count_cons (b : List String) (bs : List (List String)) :
    claim_nonempty_batch_count (b :: bs)
      = (if b.tail.isEmpty then 0 else 1) + claim_nonempty_batch_count bs := by
  simp only [claim_nonempty_batch_count, List.filter_cons, rebuild_batch_fst_isEmpty]
  by_cases h : b.tail.isEmpty
  · simp [h]
  · simp [h]
    omega

/-- The batch loop of rebuild_file accumulates, over all batches, the
truncated per-batch hashes, the credit, debit and kept-line totals, and
counts exactly the non-empty batches. -/
theorem rebuild_file_loop_spec (bs : List (List String)) :
    ∀ (t : RunTotals) (acc : List String) (cnt : Nat),
      (rebuild_file_loop t acc cnt bs).2.1 =
        ⟨t.entryHashCnt + (bs.map (fun b => last10 (claim_batch_hash b.tail))).sum,
          t.totalCredit + claim_file_credit bs,
          t.totalDebit + claim_file_debit bs,
          t.totalRecordCnt + claim_kept_record_count bs⟩ ∧
      (rebuild_file_loop t acc cnt bs).2.2 = cnt + claim_nonempty_batch_count bs := by
  induction bs with
  | nil =>
    intro t acc cnt
    simp [rebuild_file_loop, claim_file_credit, claim_file_debit, claim_kept_record_count,
      claim_nonempty_batch_count]
  | cons b bs ih =>
    intro t acc cnt
    rw [claim_file_credit_cons, claim_file_debit_cons, claim_kept_record_count_cons,
      claim_nonempty_batch_count_cons]
    by_cases hb : b.tail = []
    · have hre := rebuild_batch_of_tail_nil t b (cnt + 1) hb
      simp only [rebuild_file_loop, hre, List.isEmpty_nil, if_true, Nat.add_sub_cancel]
      have := ih t acc cnt
      rw [this.1, this.2]
      simp [hb, claim_batch_hash, claim_batch_credit, claim_batch_debit, detail_lines, last10]
    · match b, hb with
      | hdr :: rest, hb =>
        have hrest : rest ≠ [] := by simpa using hb
        have hre := rebuild_batch_spec t hdr rest (cnt + 1) hrest
        simp only [rebuild_file_loop, hre]
        simp only [List.cons_append, List.isEmpty_cons, if_false, Bool.false_eq_true]
        have := ih ⟨t.entryHashCnt + last10 (claim_batch_hash rest),
          t.totalCredit + claim_batch_credit rest, t.totalDebit + claim_batch_debit rest,
          t.totalRecordCnt + rest.length⟩
          (acc ++ (pyDropRight hdr 7 ++ pyFmtD 7 (cnt + 1)) :: (rest ++
            ["8" ++ pySlice hdr 1 4 ++ pyFmtD 6 rest.length
              ++ pyFmtD 10 (last10 (claim_batch_hash rest))
              ++ pyFmtD 12 (claim_batch_debit rest) ++ pyFmtD 12 (claim_batch_credit rest)
              ++ pySlice hdr 40 49 ++ spacesStr 18 ++ spacesStr 8
              ++ pySlice hdr 79 87 ++ pyFmtD 7 (cnt + 1)]))
          (cnt + 1)
        rw [this.1, this.2]
        refine ⟨?_, by simp [hrest]; omega⟩
        simp only [List.tail_cons, List.map_cons, List.sum_cons, RunTotals.mk.injEq]
        omega

/-- Truncating each per-batch hash to its rightmost 10 digits before
summing does not change the rightmost 10 digits of the file-wide sum. -/
theorem last10_file_hash (bs : List (List String)) :
    last10 ((bs.map (fun b => last10 (claim_batch_hash b.tail))).sum)
      = last10 (claim_file_hash bs) := by
  unfold claim_file_hash
  induction bs with
  | nil => rfl
  | cons b bs ih =>
    simp only [List.map_cons, List.sum_cons]
    unfold last10 at *
    omega

/-- C2 amended: for a run context with the zero accumulators produced by
initialize (as every parsed input has), the recomputed file control record
carries: record type 9, the number of non-empty rebuilt batches (6
digits), the block count (6 digits), the sum over batches of the number of
kept entry/addenda lines after each batch header (8 digits), the rightmost
10 digits of the file-wide routing-prefix sum over all kept detail lines
(10 digits), and the file-wide debit and credit totals (12 digits each),
followed by 39 reserved spaces. -/
theorem C2_file_control_fields (sd : ScriptData)
    (h1 : sd.entryHashCnt = 0) (h2 : sd.totalCredit = 0) (h3 : sd.totalDebit = 0)
    (h4 : sd.totalRecordCnt = 0) :
    file_control_record sd =
      "9" ++ pyFmtD 6 (claim_nonempty_batch_count (ach_lines sd))
        ++ pyFmtD 6 (block_count sd)
        ++ pyFmtD 8 (claim_kept_record_count (ach_lines sd))
        ++ pyFmtD 10 (last10 (claim_file_hash (ach_lines sd)))
        ++ pyFmtD 12 (claim_file_debit (ach_lines sd))
        ++ pyFmtD 12 (claim_file_credit (ach_lines sd))
        ++ spacesStr 39 := by
  have hspec := rebuild_file_loop_spec (ach_lines sd) (run_totals sd) [sd.fileHeader] 0
  unfold file_control_record file_control_record_core final_totals_core batch_count_core
    block_count block_count_core
  rw [hspec.1, hspec.2]
  unfold run_totals
  rw [h1, h2, h3, h4]
  simp [last10_file_hash]

/-- C2 witness: the amended file-control equation evaluated on a concrete
run context with one kept batch. -/
theorem C2_file_control_fields_witness :
    cx2_sd.entryHashCnt = 0 ∧ cx2_sd.totalCredit = 0 ∧ cx2_sd.totalDebit = 0 ∧
    cx2_sd.totalRecordCnt = 0 ∧
    file_control_record cx2_sd =
      "9" ++ pyFmtD 6 (claim_nonempty_batch_count (ach_lines cx2_sd))
        ++ pyFmtD 6 (block_count cx2_sd)
        ++ pyFmtD 8 (claim_kept_record_count (ach_lines cx2_sd))
        ++ pyFmtD 10 (last10 (claim_file_hash (ach_lines cx2_sd)))
        ++ pyFmtD 12 (claim_file_debit (ach_lines cx2_sd))
        ++ pyFmtD 12 (claim_file_credit (ach_lines cx2_sd))
        ++ spacesStr 39 :=
  ⟨rfl, rfl, rfl, rfl, C2_file_control_fields cx2_sd rfl rfl rfl rfl⟩

/-- C2 counterexample: on a parsed input with one kept batch of one detail
line, the total-record-count field of the file control record (characters
14-21 of the record, per the documented layout) holds 1, the number of
kept lines, while the number of all lines across the rebuilt batches
(header and control record included) is 3 — so the claim that the field
equals the sum of all lines across rebuilt batches is false. -/
theorem C2_total_record_count_counterexample :
    pySlice (file_control_record cx2_sd) 13 21 = pyFmtD 8 1 ∧
    claim_total_lines_across_batches (ach_lines cx2_sd) = 3 ∧
    pySlice (file_control_record cx2_sd) 13 21
      ≠ pyFmtD 8 (claim_total_lines_across_batches (ach_lines cx2_sd)) := by
  decide

/-- C5: the rewritten file is the body, the file control record, and zero
to nine 94-character all-nines padding rows; its total line count is a
multiple of 10; and the block-count field of the control record (6 digits,
directly after the 6-digit batch count) is the total line count divided
by 10. -/
theorem C5_block_padding (sd : ScriptData) :
    (rebuild_file sd).length % 10 = 0 ∧
    extra_lines sd ≤ 9 ∧
    rebuild_file sd = body_lines sd ++ [file_control_record sd]
      ++ List.replicate (extra_lines sd) nines_row ∧
    ∃ bc rest9, file_control_record sd =
      "9" ++ pyFmtD 6 bc ++ pyFmtD 6 ((rebuild_file sd).length / 10) ++ rest9 := by
  have hlen : (rebuild_file sd).length
      = line_cnt_core (run_totals sd) sd.fileHeader (ach_lines sd) + extra_lines sd := by
    unfold rebuild_file rebuild_file_core extra_lines line_cnt_core body_lines_core
    simp [List.length_append]
    omega
  have hdiv : (rebuild_file sd).length / 10
      = block_count_core (run_totals sd) sd.fileHeader (ach_lines sd) := by
    rw [hlen]
    unfold block_count_core extra_lines
    rfl
  refine ⟨?_, ?_, rfl, ?_⟩
  · rw [hlen]
    unfold extra_lines extra_lines_core
    split <;> omega
  · unfold extra_lines extra_lines_core
    split <;> omega
  · refine ⟨batch_count_core (run_totals sd) sd.fileHeader (ach_lines sd),
      pyFmtD 8 (final_totals_core (run_totals sd) sd.fileHeader (ach_lines sd)).totalRecordCnt
        ++ pyFmtD 10 (last10 (final_totals_core (run_totals sd) sd.fileHeader
            (ach_lines sd)).entryHashCnt)
        ++ pyFmtD 12 (final_totals_core (run_totals sd) sd.fileHeader (ach_lines sd)).totalDebit
        ++ pyFmtD 12 (final_totals_core (run_totals sd) sd.fileHeader (ach_lines sd)).totalCredit
        ++ spacesStr 39, ?_⟩
    rw [hdiv]
    unfold file_control_record file_control_record_core
    simp [String.append_assoc]

/-- C6: rebuilding the output file is a pure function of the parsed state:
two run contexts that agree on the file header, the kept batches and the
four run accumulators produce byte-identical rewritten files. -/
theorem C6_rebuild_deterministic (s1 s2 : ScriptData)
    (hfh : s1.fileHeader = s2.fileHeader) (hba : s1.newachData = s2.newachData)
    (h1 : s1.entryHashCnt = s2.entryHashCnt) (h2 : s1.totalCredit = s2.totalCredit)
    (h3 : s1.totalDebit = s2.totalDebit) (h4 : s1.totalRecordCnt = s2.totalRecordCnt) :
    write_new_ach_file s1 = write_new_ach_file s2 := by
  unfold write_new_ach_file rebuild_file
  rw [show run_totals s1 = run_totals s2 by unfold run_totals; rw [h1, h2, h3, h4]]
  rw [show ach_lines s1 = ach_lines s2 by unfold ach_lines; rw [hba]]
  rw [hfh]

/-- C6 witness: the determinism theorem applied to a concrete parsed
state. -/
theorem C6_rebuild_deterministic_witness :
    write_new_ach_file cx2_sd = write_new_ach_file cx2_sd :=
  C6_rebuild_deterministic cx2_sd cx2_sd rfl rfl rfl rfl rfl rfl

/-- C7 code bug, evaluated: the company identification field of a batch
header is characters 41-50 (ten characters, here 1234567890, as the
source comment itself documents), but the rebuilt batch control record
carries only characters 41-49, so its own company-identification field
(characters 45-54 of a control record) holds the nine copied digits plus
a padding space instead of the full field. -/
theorem C7_company_id_truncated :
    pySlice c7_hdr 40 50 = "1234567890" ∧
    pySlice (List.getLastD (rebuild_batch ⟨0, 0, 0, 0⟩ [c7_hdr, c7_det] 1).1 "") 44 54
      = "123456789 " ∧
    pySlice (List.getLastD (rebuild_batch ⟨0, 0, 0, 0⟩ [c7_hdr, c7_det] 1).1 "") 44 54
      ≠ pySlice c7_hdr 40 50 := by
  decide

/-- The settlement loop maps each on-us record to exactly one settlement
line, in order, and accumulates the amounts into glDrAmt. -/
theorem onus_loop_spec (cfg : Config) (rs : List OnusRec) : ∀ sd : ScriptData,
    onus_loop cfg rs sd =
      { sd with glDrAmt := sd.glDrAmt + (rs.map (fun r => r.amt)).sum,
                swmLines := sd.swmLines ++ rs.map (create_swim_line cfg) } := by
  induction rs with
  | nil =>
    intro sd
    simp [onus_loop]
  | cons r rs ih =>
    intro sd
    rw [onus_loop, ih]
    simp [Nat.add_assoc]

/-- C4: starting from the initialized settlement state (zero accumulated
amount, no lines yet), the settlement output is one line per on-us record
followed by exactly one ledger-offset line, built by the same formatter
with description DNA ACH GL debit offset, the configured ledger account,
settlement code GLD (see offset_gl_line) and the exact sum of the record
amounts; the offset line is the final line (amount 0 when there are no
records, since the empty sum is 0). -/
theorem C4_gl_offset_line (cfg : Config) (sd : ScriptData)
    (hg : sd.glDrAmt = 0) (hl : sd.swmLines = []) :
    (loop_through_onus cfg sd).swmLines
      = sd.allOnusData.map (create_swim_line cfg)
        ++ [offset_gl_line cfg ((sd.allOnusData.map (fun r => r.amt)).sum)] ∧
    (loop_through_onus cfg sd).swmLines.getLast?
      = some (offset_gl_line cfg ((sd.allOnusData.map (fun r => r.amt)).sum)) := by
  unfold loop_through_onus
  rw [onus_loop_spec cfg sd.allOnusData sd]
  simp only [hg, hl, Nat.zero_add, List.nil_append]
  exact ⟨trivial, List.getLast?_concat _⟩

/-- C4 witness: the settlement output for one concrete on-us record. -/
theorem C4_gl_offset_line_witness :
    cx4_sd.glDrAmt = 0 ∧ cx4_sd.swmLines = [] ∧
    (loop_through_onus demo_cfg cx4_sd).swmLines
      = cx4_sd.allOnusData.map (create_swim_line demo_cfg)
        ++ [offset_gl_line demo_cfg ((cx4_sd.allOnusData.map (fun r => r.amt)).sum)] :=
  ⟨rfl, rfl, (C4_gl_offset_line demo_cfg cx4_sd rfl rfl).1⟩

/-- C8 code bug, evaluated: on a well-formed 94-character marker-bearing
addenda the description the code stores (extract_description, from the
regex group spanning characters 4 to 91) is the payment-related
information plus the addenda sequence number and part of the entry
sequence number, not the trimmed 80-character payment-related-information
field (characters 4-83) that the claim — and the comment in the source —
prescribe. -/
theorem C8_description_divergence :
    extract_description c8_addenda
      = "EXT OAO JOHN DOE TRANSFER" ++ spacesStr 55 ++ "00010000" ∧
    spec_payment_info_description c8_addenda = "EXT OAO JOHN DOE TRANSFER" ∧
    extract_description c8_addenda ≠ spec_payment_info_description c8_addenda := by
  decide

/-- A line that starts with the character 7 is nonempty and starts with
none of the other dispatch prefixes. -/
theorem starts7_other_prefixes (line : String) (h : pyStartsWith line "7" = true) :
    line.toList.isEmpty = false ∧ pyStartsWith line "101" = false ∧
    pyStartsWith line "9" = false ∧ pyStartsWith line "8" = false ∧
    pyStartsWith line "5" = false := by
  unfold pyStartsWith at *
  cases hc : line.toList with
  | nil =>
    rw [hc] at h
    exact absurd h (by decide)
  | cons c cs =>
    rw [hc] at h
    have hc7 : c = '7' := by
      rw [show ("7" : String).toList = ['7'] from rfl] at h
      simp only [List.isPrefixOf, Bool.and_eq_true, beq_iff_eq] at h
      exact h.1.symm
    subst hc7
    refine ⟨rfl, ?_, ?_, ?_, ?_⟩
    · rw [show ("101" : String).toList = ['1', '0', '1'] from rfl]
      simp [List.isPrefixOf]
    · rw [show ("9" : String).toList = ['9'] from rfl]
      simp [List.isPrefixOf]
    · rw [show ("8" : String).toList = ['8'] from rfl]
      simp [List.isPrefixOf]
    · rw [show ("5" : String).toList = ['5'] from rfl]
      simp [List.isPrefixOf]

/-- C10: while a candidate is pending, an addenda line that contains the
marker EXT OAO but fails the 705-shape test changes nothing: it is
appended neither to the batch under construction (hence never to the
rewritten file) nor to the on-us list (hence never to the settlement
output), and the pending candidate and flag survive untouched; the parser
simply moves to the next line. -/
theorem C10_malformed_marker_addenda (route : String) (s : ParseState) (i : Nat)
    (line : String) (rest : List (Nat × String))
    (_hpend : s.onusData.isSome = true) (hact : s.isOnus ≠ "")
    (hmark : pyContains line "EXT OAO" = true) (hshape : re_705_shape line = false) :
    step7 s i line = s ∧
    (pyStrip line = line → pyStartsWith line "7" = true →
      parse_lines route s ((i, line) :: rest) = parse_lines route s rest) := by
  have hstep : step7 s i line = s := by
    unfold step7
    rw [if_neg hact]
    have h2 : (!(pyContains line "EXT OAO")) = false := by
      rw [hmark]
      rfl
    simp [h2, hshape]
  refine ⟨hstep, fun hstrip hstart => ?_⟩
  obtain ⟨he, h101, h9, h8, h5⟩ := starts7_other_prefixes line hstart
  rw [parse_lines, hstrip]
  simp [he, h101, h9, h8, h5, hstart, hstep]

/-- C10 witness: the no-effect equation evaluated on a concrete pending
state and a concrete malformed marker addenda. -/
theorem C10_malformed_marker_addenda_witness :
    demo_pending_state.onusData.isSome = true ∧ demo_pending_state.isOnus ≠ "" ∧
    pyContains demo_bad_addenda "EXT OAO" = true ∧ re_705_shape demo_bad_addenda = false ∧
    parse_lines "99" demo_pending_state [(5, demo_bad_addenda)] = demo_pending_state :=
  ⟨rfl, by decide, by decide, by decide, by
    have h := C10_malformed_marker_addenda "99" demo_pending_state 5 demo_bad_addenda []
      rfl (by decide) (by decide) (by decide)
    rw [h.2 (by decide) (by decide)]
    rfl⟩

/-- The first two source checks (isdigit, then length 9) together are the
claim's exactly-nine-ASCII-digits condition. -/
theorem digits_len_equiv (r : String) :
    (pyIsDigit r = true ∧ pyLen r = 9) ↔ nine_ascii_digits r := by
  unfold pyIsDigit pyLen nine_ascii_digits
  constructor
  · rintro ⟨hd, hl⟩
    rw [Bool.and_eq_true] at hd
    exact ⟨hl, hd.2⟩
  · rintro ⟨hl, ha⟩
    refine ⟨?_, hl⟩
    have hne : r.toList.isEmpty = false := by
      cases hc : r.toList with
      | nil =>
        unfold pyLen at hl
        rw [hc] at hl
        simp at hl
      | cons c cs => rfl
    rw [Bool.and_eq_true]
    exact ⟨by rw [hne]; rfl, ha⟩

/-- Bool list containment agrees with propositional membership. -/
theorem contains_iff_mem_str (l : List String) (a : String) : l.contains a = true ↔ a ∈ l :=
  List.elem_iff

/-- The source district list (duplicates included) and the claim's
district set have the same members. -/
theorem district_equiv (x : String) :
    is_valid_fed_symbol x = true ↔ district_in_claim_set x := by
  unfold is_valid_fed_symbol district_in_claim_set
  rw [contains_iff_mem_str]
  have h1 : ∀ y ∈ fed_districts, y ∈ claim_districts := by decide
  have h2 : ∀ y ∈ claim_districts, y ∈ fed_districts := by decide
  exact ⟨fun h => h1 _ h, fun h => h2 _ h⟩

/-- On nine-character input the source checksum (indexed digit access)
and the claim's weighted-sum formulation agree. -/
theorem checksum_equiv (r : String) (h9 : pyLen r = 9) :
    validate_routing_number_checksum r = true ↔ claim_checksum_ok r := by
  unfold validate_routing_number_checksum claim_checksum_ok
  unfold pyLen at h9
  generalize hgen : r.toList = l at h9 ⊢
  rcases l with _ | ⟨c1, l⟩
  · simp at h9
  rcases l with _ | ⟨c2, l⟩
  · simp at h9
  rcases l with _ | ⟨c3, l⟩
  · simp at h9
  rcases l with _ | ⟨c4, l⟩
  · simp at h9
  rcases l with _ | ⟨c5, l⟩
  · simp at h9
  rcases l with _ | ⟨c6, l⟩
  · simp at h9
  rcases l with _ | ⟨c7, l⟩
  · simp at h9
  rcases l with _ | ⟨c8, l⟩
  · simp at h9
  rcases l with _ | ⟨c9, l⟩
  · simp at h9
  have hnil : l = [] := by
    simp only [List.length_cons] at h9
    have : l.length = 0 := by omega
    exact List.length_eq_zero.mp this
  subst hnil
  simp only [List.map_cons, List.map_nil, List.getD_cons_zero, List.getD_cons_succ,
    List.zipWith, List.sum_cons, List.sum_nil, beq_iff_eq]
  constructor <;> intro h <;> omega

/-- C9: the routing number validator passes exactly when the input is nine
ASCII digits, characters 3-4 lie in the district set 01-12, 20-29, 30-39,
and the weighted checksum 3,7,1,3,7,1,3,7,1 vanishes modulo 10; on
failure the printed reason identifies the failed check (the two reasons
about digits and length both signal the failure of the
nine-ASCII-digits condition). -/
theorem C9_route_validator (r : String) :
    (validate_route_number r = .pass ↔
      nine_ascii_digits r ∧ district_in_claim_set r ∧ claim_checksum_ok r) ∧
    (∀ reason, validate_route_number r = .fail reason →
      (((reason = "Routing number must be all digits") ∨ (reason = "Routing number too short"))
          ↔ ¬ nine_ascii_digits r) ∧
      ((reason = "Invalid fed district") ↔ (nine_ascii_digits r ∧ ¬ district_in_claim_set r)) ∧
      ((reason = "Invalid checksum") ↔
        (nine_ascii_digits r ∧ district_in_claim_set r ∧ ¬ claim_checksum_ok r))) := by
  by_cases hd : pyIsDigit r = true
  · by_cases hl : pyLen r = 9
    · have hP1 : nine_ascii_digits r := (digits_len_equiv r).mp ⟨hd, hl⟩
      by_cases hf : is_valid_fed_symbol r = true
      · have hP2 : district_in_claim_set r := (district_equiv r).mp hf
        by_cases hc : validate_routing_number_checksum r = true
        · have hP3 : claim_checksum_ok r := (checksum_equiv r hl).mp hc
          have hv : validate_route_number r = .pass := by
            unfold validate_route_number
            simp [hd, hl, hf, hc]
          rw [hv]
          refine ⟨by simp [hP1, hP2, hP3], fun reason hr => ?_⟩
          exact absurd hr (by simp)
        · have hP3 : ¬ claim_checksum_ok r := fun hx => hc ((checksum_equiv r hl).mpr hx)
          have hv : validate_route_number r = .fail "Invalid checksum" := by
            unfold validate_route_number
            simp [hd, hl, hf, hc]
          rw [hv]
          refine ⟨by simp [hP3, hP1, hP2], fun reason hr => ?_⟩
          have : reason = "Invalid checksum" := by
            injection hr with h
            exact h.symm
          subst this
          refine ⟨by simp [hP1], by simp [hP2, hP1], by simp [hP1, hP2, hP3]⟩
      · have hP2 : ¬ district_in_claim_set r := fun hx => hf ((district_equiv r).mpr hx)
        have hv : validate_route_number r = .fail "Invalid fed district" := by
          unfold validate_route_number
          simp [hd, hl, hf]
        rw [hv]
        refine ⟨by simp [hP2, hP1], fun reason hr => ?_⟩
        have : reason = "Invalid fed district" := by
          injection hr with h
          exact h.symm
        subst this
        refine ⟨by simp [hP1], by simp [hP2, hP1], by simp [hP2]⟩
    · have hP1 : ¬ nine_ascii_digits r := fun hx => hl ((digits_len_equiv r).mpr hx).2
      have hv : validate_route_number r = .fail "Routing number too short" := by
        unfold validate_route_number
        simp [hd, hl]
      rw [hv]
      refine ⟨by simp [hP1], fun reason hr => ?_⟩
      have : reason = "Routing number too short" := by
        injection hr with h
        exact h.symm
      subst this
      refine ⟨by simp [hP1], by simp [hP1], by simp [hP1]⟩
  · have hP1 : ¬ nine_ascii_digits r := fun hx => hd ((digits_len_equiv r).mpr hx).1
    have hv : validate_route_number r = .fail "Routing number must be all digits" := by
      unfold validate_route_number
      simp [hd]
    rw [hv]
    refine ⟨by simp [hP1], fun reason hr => ?_⟩
    have : reason = "Routing number must be all digits" := by
      injection hr with h
      exact h.symm
    subst this
    refine ⟨by simp [hP1], by simp [hP1], by simp [hP1]⟩

/-- C9 witness: a real routing number (Federal Reserve Bank district 01,
checksum 20) passes the validator, via the characterization. -/
theorem C9_route_validator_witness :
    validate_route_number "011000015" = .pass :=
  (C9_route_validator "011000015").1.mpr (by
    unfold nine_ascii_digits district_in_claim_set claim_checksum_ok
    refine ⟨by decide, by decide, by decide⟩)

/-- Kept positions split into the stored-batch part and the open-batch
part. -/
theorem mem_keptIdxs (s : ParseState) (j : Nat) :
    j ∈ keptIdxs s ↔
      j ∈ s.sd.newachData.flatten.map Prod.fst ∨ j ∈ s.currentBatch.map Prod.fst := by
  simp [keptIdxs]

/-- Positions of finalized records are state positions. -/
theorem stateIdxs_of_onus (s : ParseState) (r : OnusRec) (h : r ∈ s.sd.allOnusData) :
    r.didx ∈ stateIdxs s ∧ r.aidx ∈ stateIdxs s := by
  unfold stateIdxs onusIdxs
  have hd : r.didx ∈ (List.map (fun r => [r.didx, r.aidx]) s.sd.allOnusData).flatten := by
    rw [List.mem_flatten]
    exact ⟨[r.didx, r.aidx], List.mem_map_of_mem _ h, by simp⟩
  have ha : r.aidx ∈ (List.map (fun r => [r.didx, r.aidx]) s.sd.allOnusData).flatten := by
    rw [List.mem_flatten]
    exact ⟨[r.didx, r.aidx], List.mem_map_of_mem _ h, by simp⟩
  constructor
  · simp only [List.mem_append]
    exact Or.inr hd
  · simp only [List.mem_append]
    exact Or.inr ha

/-- Kept positions are state positions. -/
theorem stateIdxs_of_kept (s : ParseState) (j : Nat) (h : j ∈ keptIdxs s) :
    j ∈ stateIdxs s := by
  unfold stateIdxs
  simp only [List.mem_append]
  exact Or.inl (Or.inl h)

/-- The pending candidate's position is a state position. -/
theorem stateIdxs_of_pend (s : ParseState) (c : PendingRec) (h : s.onusData = some c) :
    c.idx ∈ stateIdxs s := by
  unfold stateIdxs pendIdxs
  simp only [List.mem_append, h]
  left
  right
  simp

/-- Weakening the position bound of the invariant. -/
theorem inv_mono (k : Nat) (s : ParseState) (h : ParseInv k s) : ParseInv (k + 1) s :=
  ⟨fun j hj => Nat.lt_succ_of_lt (h.1 j hj), h.2.1, h.2.2⟩

/-- The invariant holds initially. -/
theorem inv_initial : ParseInv 0 initial_parse_state := by
  refine ⟨?_, ?_, ?_⟩
  · intro j hj
    simp [stateIdxs, keptIdxs, pendIdxs, onusIdxs, initial_parse_state,
      initial_script_data] at hj
  · intro r hr
    simp [initial_parse_state, initial_script_data] at hr
  · intro c hc
    simp [initial_parse_state, initial_script_data] at hc

/-- The invariant is preserved by opening a new batch on the fresh line
(record type 5): the old open batch is discarded, which only shrinks the
kept set apart from the fresh position. -/
theorem inv_new_batch (k : Nat) (s : ParseState) (line : String) (h : ParseInv k s) :
    ParseInv (k + 1) { s with currentBatch := [(k, line)] } := by
  obtain ⟨hA, hB, hC⟩ := h
  have hkept : ∀ j, j ∈ keptIdxs { s with currentBatch := [(k, line)] } →
      j ∈ keptIdxs s ∨ j = k := by
    intro j hj
    rw [mem_keptIdxs] at hj
    rcases hj with hj | hj
    · exact Or.inl ((mem_keptIdxs s j).mpr (Or.inl hj))
    · simp at hj
      exact Or.inr hj
  refine ⟨?_, ?_, ?_⟩
  · intro j hj
    unfold stateIdxs pendIdxs onusIdxs at hj
    simp only [List.mem_append] at hj
    rcases hj with (hj | hj) | hj
    · rcases hkept j hj with hj | hj
      · exact Nat.lt_succ_of_lt (hA j (stateIdxs_of_kept s j hj))
      · omega
    · rcases hp : s.onusData with _ | c
      · simp [hp] at hj
      · simp [hp] at hj
        subst hj
        exact Nat.lt_succ_of_lt (hA _ (stateIdxs_of_pend s c hp))
    · have : j ∈ stateIdxs s := by
        unfold stateIdxs
        simp only [List.mem_append]
        exact Or.inr hj
      exact Nat.lt_succ_of_lt (hA j this)
  · intro r hr
    have hd := (stateIdxs_of_onus s r hr).1
    have ha := (stateIdxs_of_onus s r hr).2
    constructor
    · intro hmem
      rcases hkept _ hmem with hj | hj
      · exact (hB r hr).1 hj
      · exact absurd (hj ▸ hA _ hd) (by omega)
    · intro hmem
      rcases hkept _ hmem with hj | hj
      · exact (hB r hr).2 hj
      · exact absurd (hj ▸ hA _ ha) (by omega)
  · intro c hc
    have hc0 : s.onusData = some c := hc
    constructor
    · intro hmem
      rcases hkept _ hmem with hj | hj
      · exact (hC c hc0).1 hj
      · exact absurd (hj ▸ hA _ (stateIdxs_of_pend s c hc0)) (by omega)
    · exact (hC c hc0).2

/-- The invariant is preserved by keeping the fresh line in the open
batch. -/
theorem inv_append_fresh (k : Nat) (sd : ScriptData) (cb : List (Nat × String))
    (io : String) (od : Option PendingRec) (line : String)
    (h : ParseInv k ⟨sd, cb, io, od⟩) :
    ParseInv (k + 1) ⟨sd, cb ++ [(k, line)], io, od⟩ := by
  obtain ⟨hA, hB, hC⟩ := h
  have hkept : ∀ j, j ∈ keptIdxs ⟨sd, cb ++ [(k, line)], io, od⟩ →
      j ∈ keptIdxs ⟨sd, cb, io, od⟩ ∨ j = k := by
    intro j hj
    rw [mem_keptIdxs] at hj
    rcases hj with hj | hj
    · exact Or.inl ((mem_keptIdxs _ j).mpr (Or.inl hj))
    · simp only [List.map_append, List.mem_append] at hj
      rcases hj with hj | hj
      · exact Or.inl ((mem_keptIdxs _ j).mpr (Or.inr hj))
      · simp at hj
        exact Or.inr hj
  refine ⟨?_, ?_, ?_⟩
  · intro j hj
    unfold stateIdxs at hj
    simp only [List.mem_append] at hj
    rcases hj with (hj | hj) | hj
    · rcases hkept j hj with hj | hj
      · exact Nat.lt_succ_of_lt (hA j (stateIdxs_of_kept _ j hj))
      · omega
    · have : j ∈ stateIdxs ⟨sd, cb, io, od⟩ := by
        unfold stateIdxs
        simp only [List.mem_append]
        exact Or.inl (Or.inr hj)
      exact Nat.lt_succ_of_lt (hA j this)
    · have : j ∈ stateIdxs ⟨sd, cb, io, od⟩ := by
        unfold stateIdxs
        simp only [List.mem_append]
        exact Or.inr hj
      exact Nat.lt_succ_of_lt (hA j this)
  · intro r hr
    have hd := (stateIdxs_of_onus ⟨sd, cb, io, od⟩ r hr).1
    have ha := (stateIdxs_of_onus ⟨sd, cb, io, od⟩ r hr).2
    constructor
    · intro hmem
      rcases hkept _ hmem with hj | hj
      · exact (hB r hr).1 hj
      · have := hA _ hd
        omega
    · intro hmem
      rcases hkept _ hmem with hj | hj
      · exact (hB r hr).2 hj
      · have := hA _ ha
        omega
  · intro c hc
    have hc0 : (⟨sd, cb, io, od⟩ : ParseState).onusData = some c := hc
    constructor
    · intro hmem
      rcases hkept _ hmem with hj | hj
      · exact (hC c hc0).1 hj
      · have := hA _ (stateIdxs_of_pend _ c hc0)
        omega
    · exact (hC c hc0).2

/-- The invariant is preserved by flushing the pending candidate back into
the open batch (an addenda-less or disqualified candidate is restored). -/
theorem inv_flush (k : Nat) (sd : ScriptData) (cb : List (Nat × String)) (io : String)
    (c : PendingRec) (h : ParseInv k ⟨sd, cb, io, some c⟩) :
    ParseInv k ⟨sd, cb ++ [(c.idx, c.line)], "", none⟩ := by
  obtain ⟨hA, hB, hC⟩ := h
  have hcidx := hA _ (stateIdxs_of_pend ⟨sd, cb, io, some c⟩ c rfl)
  have hkept : ∀ j, j ∈ keptIdxs ⟨sd, cb ++ [(c.idx, c.line)], "", none⟩ →
      j ∈ keptIdxs ⟨sd, cb, io, some c⟩ ∨ j = c.idx := by
    intro j hj
    rw [mem_keptIdxs] at hj
    rcases hj with hj | hj
    · exact Or.inl ((mem_keptIdxs _ j).mpr (Or.inl hj))
    · simp only [List.map_append, List.mem_append] at hj
      rcases hj with hj | hj
      · exact Or.inl ((mem_keptIdxs _ j).mpr (Or.inr hj))
      · simp at hj
        exact Or.inr hj
  refine ⟨?_, ?_, ?_⟩
  · intro j hj
    unfold stateIdxs at hj
    simp only [List.mem_append] at hj
    rcases hj with (hj | hj) | hj
    · rcases hkept j hj with hj | hj
      · exact hA j (stateIdxs_of_kept _ j hj)
      · omega
    · simp [pendIdxs] at hj
    · have : j ∈ stateIdxs ⟨sd, cb, io, some c⟩ := by
        unfold stateIdxs
        simp only [List.mem_append]
        exact Or.inr hj
      exact hA j this
  · intro r hr
    constructor
    · intro hmem
      rcases hkept _ hmem with hj | hj
      · exact (hB r hr).1 hj
      · exact ((hC c rfl).2 r hr).1 hj
    · intro hmem
      rcases hkept _ hmem with hj | hj
      · exact (hB r hr).2 hj
      · exact ((hC c rfl).2 r hr).2 hj
  · intro c' hc'
    simp at hc'

/-- The invariant is preserved by closing the open batch into the stored
batches: the kept positions are merely rearranged. -/
theorem inv_store_batch (k : Nat) (sd : ScriptData) (cb : List (Nat × String))
    (io : String) (od : Option PendingRec) (h : ParseInv k ⟨sd, cb, io, od⟩) :
    ParseInv k ⟨{ sd with newachData := sd.newachData ++ [cb] }, [], io, od⟩ := by
  obtain ⟨hA, hB, hC⟩ := h
  have hkept : ∀ j, j ∈ keptIdxs ⟨{ sd with newachData := sd.newachData ++ [cb] }, [], io, od⟩
      ↔ j ∈ keptIdxs ⟨sd, cb, io, od⟩ := by
    intro j
    rw [mem_keptIdxs, mem_keptIdxs]
    simp [List.flatten_append]
  refine ⟨?_, ?_, ?_⟩
  · intro j hj
    unfold stateIdxs at hj
    simp only [List.mem_append] at hj
    rcases hj with (hj | hj) | hj
    · exact hA j (stateIdxs_of_kept _ j ((hkept j).mp hj))
    · refine hA j ?_
      unfold stateIdxs
      simp only [List.mem_append]
      exact Or.inl (Or.inr hj)
    · refine hA j ?_
      unfold stateIdxs
      simp only [List.mem_append]
      exact Or.inr hj
  · intro r hr
    exact ⟨fun hmem => (hB r hr).1 ((hkept _).mp hmem),
      fun hmem => (hB r hr).2 ((hkept _).mp hmem)⟩
  · intro c hc
    have hc0 : (⟨sd, cb, io, od⟩ : ParseState).onusData = some c := hc
    exact ⟨fun hmem => (hC c hc0).1 ((hkept _).mp hmem), (hC c hc0).2⟩

/-- The invariant is preserved by buffering the fresh line as the pending
candidate (its position is the fresh one); a stale overwritten buffer only
shrinks the position sets. -/
theorem inv_set_pending (k : Nat) (sd : ScriptData) (cb : List (Nat × String))
    (io io2 : String) (od : Option PendingRec) (p : PendingRec) (hp : p.idx = k)
    (h : ParseInv k ⟨sd, cb, io, od⟩) :
    ParseInv (k + 1) ⟨sd, cb, io2, some p⟩ := by
  obtain ⟨hA, hB, hC⟩ := h
  have hkept : ∀ j, j ∈ keptIdxs ⟨sd, cb, io2, some p⟩ ↔ j ∈ keptIdxs ⟨sd, cb, io, od⟩ := by
    intro j
    rw [mem_keptIdxs, mem_keptIdxs]
  refine ⟨?_, ?_, ?_⟩
  · intro j hj
    unfold stateIdxs at hj
    simp only [List.mem_append] at hj
    rcases hj with (hj | hj) | hj
    · exact Nat.lt_succ_of_lt (hA j (stateIdxs_of_kept _ j ((hkept j).mp hj)))
    · simp [pendIdxs] at hj
      omega
    · refine Nat.lt_succ_of_lt (hA j ?_)
      unfold stateIdxs
      simp only [List.mem_append]
      exact Or.inr hj
  · intro r hr
    refine ⟨fun hmem => (hB r hr).1 ((hkept _).mp hmem),
      fun hmem => (hB r hr).2 ((hkept _).mp hmem)⟩
  · intro c hc
    have hcp : c = p := by
      simpa using hc.symm
    subst hcp
    constructor
    · intro hmem
      have := hA _ (stateIdxs_of_kept _ _ ((hkept _).mp hmem))
      omega
    · intro r hr
      have hd := hA _ (stateIdxs_of_onus ⟨sd, cb, io, od⟩ r hr).1
      have ha := hA _ (stateIdxs_of_onus ⟨sd, cb, io, od⟩ r hr).2
      omega

/-- The invariant is preserved by finalizing the pending candidate with
the fresh marker-bearing addenda into the on-us list: neither position is
kept, and both are recorded in the new on-us record. -/
theorem inv_finalize (k : Nat) (sd : ScriptData) (cb : List (Nat × String)) (io : String)
    (c : PendingRec) (line : String)
    (h : ParseInv k ⟨sd, cb, io, some c⟩) :
    ParseInv (k + 1) ⟨{ sd with allOnusData := sd.allOnusData ++
        [⟨c.idx, c.rtnbr, c.acctnbr, c.achTc, c.amt, c.traceNbr, c.line, k,
          extract_description line⟩] }, cb, "", none⟩ := by
  obtain ⟨hA, hB, hC⟩ := h
  have hcidx := hA _ (stateIdxs_of_pend ⟨sd, cb, io, some c⟩ c rfl)
  have hkept : ∀ j, j ∈ keptIdxs ⟨{ sd with allOnusData := sd.allOnusData ++
      [⟨c.idx, c.rtnbr, c.acctnbr, c.achTc, c.amt, c.traceNbr, c.line, k,
        extract_description line⟩] }, cb, "", none⟩
      ↔ j ∈ keptIdxs ⟨sd, cb, io, some c⟩ := by
    intro j
    rw [mem_keptIdxs, mem_keptIdxs]
  refine ⟨?_, ?_, ?_⟩
  · intro j hj
    unfold stateIdxs at hj
    simp only [List.mem_append] at hj
    rcases hj with (hj | hj) | hj
    · exact Nat.lt_succ_of_lt (hA j (stateIdxs_of_kept _ j ((hkept j).mp hj)))
    · simp [pendIdxs] at hj
    · unfold onusIdxs at hj
      simp only [List.map_append, List.flatten_append, List.mem_append] at hj
      rcases hj with hj | hj
      · refine Nat.lt_succ_of_lt (hA j ?_)
        unfold stateIdxs onusIdxs
        simp only [List.mem_append]
        exact Or.inr hj
      · simp at hj
        rcases hj with hj | hj <;> omega
  · intro r hr
    simp only [List.mem_append] at hr
    rcases hr with hr | hr
    · refine ⟨fun hmem => (hB r hr).1 ((hkept _).mp hmem),
        fun hmem => (hB r hr).2 ((hkept _).mp hmem)⟩
    · simp at hr
      subst hr
      constructor
      · intro hmem
        exact (hC c rfl).1 ((hkept _).mp hmem)
      · intro hmem
        have := hA _ (stateIdxs_of_kept _ _ ((hkept _).mp hmem))
        simp only at this
        omega
  · intro c' hc'
    simp at hc'

/-- The invariant is preserved by the batch-control step. -/
theorem inv_step8 (k : Nat) (s : ParseState) (h : ParseInv k s) : ParseInv k (step8 s) := by
  obtain ⟨sd, cb, io, od⟩ := s
  unfold step8
  rcases od with _ | c <;> dsimp only
  · by_cases he : cb.isEmpty = true
    · rw [if_pos he]
      exact h
    · rw [if_neg he]
      exact inv_store_batch k sd cb io none h
  · by_cases he : cb.isEmpty = true
    · rw [if_pos he]
      exact h
    · rw [if_neg he]
      by_cases hio : io = ""
      · rw [if_pos hio]
        exact inv_store_batch k sd cb io (some c) h
      · rw [if_neg hio]
        exact inv_store_batch k sd (cb ++ [(c.idx, c.line)]) "" none (inv_flush k sd cb io c h)

/-- The invariant is preserved by the addenda step on the fresh line. -/
theorem inv_step7 (k : Nat) (s : ParseState) (line : String) (h : ParseInv k s) :
    ParseInv (k + 1) (step7 s k line) := by
  obtain ⟨sd, cb, io, od⟩ := s
  unfold step7
  rcases od with _ | c <;> dsimp only <;> by_cases hio : io = ""
  · rw [if_pos hio]
    exact inv_append_fresh k sd cb io none line h
  · rw [if_neg hio]
    by_cases hm : (!(pyContains line "EXT OAO")) = true
    · rw [if_pos hm]
      exact inv_mono k _ h
    · rw [if_neg hm]
      by_cases hsh : re_705_shape line = true
      · rw [if_pos hsh]
        exact inv_mono k _ h
      · rw [if_neg hsh]
        exact inv_mono k _ h
  · rw [if_pos hio]
    exact inv_append_fresh k sd cb io (some c) line h
  · rw [if_neg hio]
    by_cases hm : (!(pyContains line "EXT OAO")) = true
    · rw [if_pos hm]
      have h2 := inv_append_fresh k sd (cb ++ [(c.idx, c.line)]) "" none line
        (inv_flush k sd cb io c h)
      simp only [List.append_assoc, List.cons_append, List.nil_append] at h2
      exact h2
    · rw [if_neg hm]
      by_cases hsh : re_705_shape line = true
      · rw [if_pos hsh]
        exact inv_finalize k sd cb io c line h
      · rw [if_neg hsh]
        exact inv_mono k _ h

/-- The invariant is preserved by the entry-detail step on the fresh
line. -/
theorem inv_step6 (k : Nat) (route : String) (s : ParseState) (line : String)
    (h : ParseInv k s) : ParseInv (k + 1) (step6 route s k line) := by
  obtain ⟨sd, cb, io, od⟩ := s
  unfold step6
  rcases od with _ | c <;> dsimp only
  · by_cases hm : is_onus_match route line = true
    · rw [if_pos hm]
      exact inv_set_pending k sd cb io ((parse_ach_detail_record line).sequenceNbr) none
        ⟨k, (parse_ach_detail_record line).rtnbr, (parse_ach_detail_record line).acctnbr,
          (parse_ach_detail_record line).achTc, (parse_ach_detail_record line).amt,
          (parse_ach_detail_record line).traceNbr, line⟩ rfl h
    · rw [if_neg hm]
      exact inv_append_fresh k sd cb io none line h
  · by_cases hio : io = ""
    · rw [if_pos hio]
      by_cases hm : is_onus_match route line = true
      · rw [if_pos hm]
        exact inv_set_pending k sd cb io ((parse_ach_detail_record line).sequenceNbr) (some c)
          ⟨k, (parse_ach_detail_record line).rtnbr, (parse_ach_detail_record line).acctnbr,
            (parse_ach_detail_record line).achTc, (parse_ach_detail_record line).amt,
            (parse_ach_detail_record line).traceNbr, line⟩ rfl h
      · rw [if_neg hm]
        exact inv_append_fresh k sd cb io (some c) line h
    · rw [if_neg hio]
      have h1 := inv_flush k sd cb io c h
      by_cases hm : is_onus_match route line = true
      · rw [if_pos hm]
        exact inv_set_pending k sd (cb ++ [(c.idx, c.line)]) ""
          ((parse_ach_detail_record line).sequenceNbr) none
          ⟨k, (parse_ach_detail_record line).rtnbr, (parse_ach_detail_record line).acctnbr,
            (parse_ach_detail_record line).achTc, (parse_ach_detail_record line).amt,
            (parse_ach_detail_record line).traceNbr, line⟩ rfl h1
      · rw [if_neg hm]
        exact inv_append_fresh k sd (cb ++ [(c.idx, c.line)]) "" none line h1

/-- Running the parsing loop on lines numbered from a fresh position
preserves the ghost-position invariant (at some final bound). -/
theorem parse_lines_inv (route : String) (raws : List String) :
    ∀ (k : Nat) (s : ParseState), ParseInv k s →
      ∃ m, ParseInv m (parse_lines route s (List.enumFrom k raws)) := by
  induction raws with
  | nil =>
    intro k s h
    exact ⟨k, h⟩
  | cons raw rest ih =>
    intro k s h
    rw [show List.enumFrom k (raw :: rest) = (k, raw) :: List.enumFrom (k + 1) rest from rfl]
    rw [parse_lines]
    dsimp only
    split_ifs with h1 h2 h3 h4 h5 h6 h7
    · exact ih (k + 1) s (inv_mono k s h)
    · exact ih (k + 1) _ (inv_mono k _ h)
    · exact ⟨k, h⟩
    · exact ih (k + 1) _ (inv_mono k _ (inv_step8 k s h))
    · exact ih (k + 1) _ (inv_new_batch k s (pyStrip raw) h)
    · exact ih (k + 1) _ (inv_step7 k s (pyStrip raw) h)
    · exact ih (k + 1) _ (inv_step6 k route s (pyStrip raw) h)
    · exact ih (k + 1) s (inv_mono k s h)

/-- C3: (1) every extracted on-us record yields exactly one settlement
line, in order, followed only by the single ledger-offset line; (2) for
every parsed input, the input-file occurrences of an extracted record's
detail line and matched addenda line are kept neither in the stored
batches nor in the open batch, so neither reaches the rewritten file
(occurrence-level statement: a distinct, identical-looking kept line is a
different occurrence); (3) a pending candidate disqualified by a
marker-less addenda is restored to its batch in its entirety, detail line
verbatim plus the addenda; (4) an addenda-less candidate is flushed back
verbatim when the next detail arrives; (5) likewise at the closing batch
control — an entry is never partially removed. -/
theorem C3_onus_extraction_integrity (route : String) (raws : List String) :
    (∀ cfg : Config,
      (loop_through_onus cfg { (parse_ach_file route raws).sd with
          glDrAmt := 0, swmLines := [] }).swmLines
        = (parse_ach_file route raws).sd.allOnusData.map (create_swim_line cfg)
          ++ [offset_gl_line cfg
            (((parse_ach_file route raws).sd.allOnusData.map (fun r => r.amt)).sum)]) ∧
    (∀ r ∈ (parse_ach_file route raws).sd.allOnusData,
      r.didx ∉ keptIdxs (parse_ach_file route raws) ∧
      r.aidx ∉ keptIdxs (parse_ach_file route raws)) ∧
    (∀ (s : ParseState) (c : PendingRec) (i : Nat) (line : String),
      s.onusData = some c → s.isOnus ≠ "" → pyContains line "EXT OAO" = false →
      step7 s i line = { s with currentBatch := s.currentBatch ++ [(c.idx, c.line), (i, line)],
                                onusData := none, isOnus := "" }) ∧
    (∀ (s : ParseState) (c : PendingRec) (i : Nat) (line : String),
      s.onusData = some c → s.isOnus ≠ "" → is_onus_match route line = false →
      step6 route s i line
        = { s with currentBatch := s.currentBatch ++ [(c.idx, c.line), (i, line)],
                   onusData := none, isOnus := "" }) ∧
    (∀ (s : ParseState) (c : PendingRec),
      s.onusData = some c → s.isOnus ≠ "" → s.currentBatch.isEmpty = false →
      step8 s = { s with
        sd := { s.sd with
                newachData := s.sd.newachData ++ [s.currentBatch ++ [(c.idx, c.line)]] },
        currentBatch := [], onusData := none, isOnus := "" }) := by
  refine ⟨?_, ?_, ?_, ?_, ?_⟩
  · intro cfg
    unfold loop_through_onus
    rw [onus_loop_spec]
    simp
  · obtain ⟨m, hm⟩ := parse_lines_inv route raws 0 initial_parse_state inv_initial
    exact hm.2.1
  · intro s c i line hc hio hm
    obtain ⟨sd, cb, io, od⟩ := s
    dsimp only at hc hio
    subst hc
    unfold step7
    dsimp only
    rw [if_neg hio]
    rw [if_pos (by rw [hm]; rfl)]
  · intro s c i line hc hio hm
    obtain ⟨sd, cb, io, od⟩ := s
    dsimp only at hc hio
    subst hc
    unfold step6
    dsimp only
    rw [if_neg hio, if_neg (by rw [hm]; exact fun h0 => Bool.noConfusion h0)]
    dsimp only
    simp [List.append_assoc]
  · intro s c hc hio he
    obtain ⟨sd, cb, io, od⟩ := s
    dsimp only at hc hio he
    subst hc
    unfold step8
    dsimp only
    rw [if_neg (by rw [he]; exact fun h0 => Bool.noConfusion h0)]
    rw [if_neg hio]

/-- C3 witness: on the demonstration file (one batch holding one on-us
detail finalized by its marker-bearing addenda at positions 2 and 3),
exactly one on-us record is extracted, its positions are 2 and 3, its
detail-line position is not kept, and the settlement output is the one
settlement line plus the ledger-offset line. -/
theorem C3_onus_extraction_integrity_witness :
    (parse_ach_file "99" demo_lines).sd.allOnusData.length = 1 ∧
    ((parse_ach_file "99" demo_lines).sd.allOnusData.getD 0 default).didx = 2 ∧
    ((parse_ach_file "99" demo_lines).sd.allOnusData.getD 0 default).aidx = 3 ∧
    keptIdxs (parse_ach_file "99" demo_lines) = [1] ∧
    ((parse_ach_file "99" demo_lines).sd.allOnusData.getD 0 default).didx
      ∉ keptIdxs (parse_ach_file "99" demo_lines) ∧
    (loop_through_onus demo_cfg { (parse_ach_file "99" demo_lines).sd with
        glDrAmt := 0, swmLines := [] }).swmLines
      = (parse_ach_file "99" demo_lines).sd.allOnusData.map (create_swim_line demo_cfg)
        ++ [offset_gl_line demo_cfg
          (((parse_ach_file "99" demo_lines).sd.allOnusData.map (fun r => r.amt)).sum)] :=
  ⟨by decide, by decide, by decide, by decide,
    ((C3_onus_extraction_integrity "99" demo_lines).2.1 _ (by decide)).1,
    (C3_onus_extraction_integrity "99" demo_lines).1 demo_cfg⟩

end AchSwim
